import Mathlib

/-!
Verification development for the silentlink backend (Rust), a typed schema
layer over a property-graph store.  The Rust source under `src/backend/src`
is shallowly embedded below: strings are modelled as `List Char`, JSON
values (`serde_json::Value`) as the inductive `Json` (numbers are modelled
as integers; floating-point literals are outside the model), the database
as explicit function parameters, and fallible operations as `Except` /
`Option` results.  Checked (debug-build) semantics are used for Rust
unsigned arithmetic: overflow and underflow are modelled as a panic
outcome rather than wrapping.
-/

namespace SilentLink

/-- Character lists stand in for Rust `String` / `&str`. -/
abbrev Str := List Char

/-- Whether an `Except` result is a success (`Ok`) value. -/
def exIsOk {ε α : Type} : Except ε α → Bool
  | .ok _ => true
  | .error _ => false

/-- Sequential effectful map over a list, stopping at the first `Err`;
models both `sqlx::fetch_all` row decoding (the first failing row aborts
the whole fetch) and `futures::try_join_all` (the first failing future
yields the error). -/
def exMapM {ε α β : Type} (f : α → Except ε β) : List α → Except ε (List β)
  | [] => .ok []
  | x :: xs =>
    match f x with
    | .error e => .error e
    | .ok y =>
      match exMapM f xs with
      | .error e => .error e
      | .ok ys => .ok (y :: ys)

/-!  ## JSON values (`serde_json::Value`)  -/

/-- Model of `serde_json::Value`.  Numbers are modelled as integers
(claims under verification never involve non-integer numbers); object
fields are an ordered association list, mirroring the order in which the
serializer emits them. -/
inductive Json : Type where
  | null : Json
  | bool (b : Bool) : Json
  | num (n : Int) : Json
  | str (s : Str) : Json
  | arr (elems : List Json) : Json
  | obj (fields : List (Str × Json)) : Json

/-- Model of `serde_json::Value::is_number`. -/
def Json.isNumber : Json → Bool
  | .num _ => true
  | _ => false

/-- Model of `serde_json::Value::is_boolean`. -/
def Json.isBoolean : Json → Bool
  | .bool _ => true
  | _ => false

/-- Model of `serde_json::Value::as_str` (`Some` exactly on string literals). -/
def Json.asStr : Json → Option Str
  | .str s => some s
  | _ => none

/-- Lookup in a property map (`HashMap<String, JsonValue>::get`), the map
being modelled as an association list with the first binding of a key
authoritative. -/
def lookupProp (props : List (Str × Json)) (k : Str) : Option Json :=
  (props.find? (fun p => p.1 == k)).map Prod.snd

/-!  ## JSON serialization (`serde_json::to_string`, compact form)  -/

/-- Hex digit used by the JSON serializer for control-character escapes. -/
def hexDigit (n : Nat) : Char :=
  if n < 10 then Char.ofNat (n + 48) else Char.ofNat (n + 87)

/-- Escaping of one character inside a JSON string literal, as the
serializer performs it. -/
def jsonEscapeChar (c : Char) : Str :=
  if c = '"' then ['\\', '"']
  else if c = '\\' then ['\\', '\\']
  else if 0x20 ≤ c.toNat then [c]
  else if c.toNat = 0x08 then ['\\', 'b']
  else if c.toNat = 0x09 then ['\\', 't']
  else if c.toNat = 0x0A then ['\\', 'n']
  else if c.toNat = 0x0C then ['\\', 'f']
  else if c.toNat = 0x0D then ['\\', 'r']
  else ['\\', 'u', '0', '0', hexDigit (c.toNat / 16), hexDigit (c.toNat % 16)]

/-- Escaping of a JSON string body. -/
def jsonEscape (s : Str) : Str := s.flatMap jsonEscapeChar

/-- The keyword `null`. -/
def litNull : Str := "null".toList

/-- The keyword `true`. -/
def litTrue : Str := "true".toList

/-- The keyword `false`. -/
def litFalse : Str := "false".toList

mutual

/-- Compact JSON serialization of a value (`value.to_string()` via the
`Display` impl of `serde_json::Value`). -/
def Json.render : Json → Str
  | .null => litNull
  | .bool b => if b then litTrue else litFalse
  | .num n => (toString n).toList
  | .str s => '"' :: (jsonEscape s ++ ['"'])
  | .arr xs => '[' :: (Json.renderElems xs ++ [']'])
  | .obj fs => '\x7b' :: (Json.renderFields fs ++ ['\x7d'])

/-- Comma-joined rendering of array elements. -/
def Json.renderElems : List Json → Str
  | [] => []
  | x :: rest => x.render ++ Json.renderElemsTail rest

/-- Comma prefixes for every array element after the first. -/
def Json.renderElemsTail : List Json → Str
  | [] => []
  | x :: rest => ',' :: (x.render ++ Json.renderElemsTail rest)

/-- Comma-joined rendering of object fields. -/
def Json.renderFields : List (Str × Json) → Str
  | [] => []
  | (k, v) :: rest =>
    '"' :: (jsonEscape k ++ '"' :: ':' :: (v.render ++ Json.renderFieldsTail rest))

/-- Comma prefixes for every object field after the first. -/
def Json.renderFieldsTail : List (Str × Json) → Str
  | [] => []
  | (k, v) :: rest =>
    ',' :: '"' :: (jsonEscape k ++ '"' :: ':' :: (v.render ++ Json.renderFieldsTail rest))

end

/-!  ## Node-creation validation (`Node::create`, node/node.rs lines 200-254) -/

/-- Attribute data types (`NodeTypeAttributeDataType`). -/
inductive NodeTypeAttributeDataType : Type where
  | string : NodeTypeAttributeDataType
  | number : NodeTypeAttributeDataType
  | boolean : NodeTypeAttributeDataType
  | date : NodeTypeAttributeDataType
deriving DecidableEq

/-- The fields of `NodeTypeAttributeDefinition` that the validation loop
reads (`name`, `data_type`, `required`). -/
structure NodeTypeAttributeDefinition : Type where
  name : Str
  data_type : NodeTypeAttributeDataType
  required : Bool
deriving DecidableEq

/-- `AttributeValidationError` from node/node.rs. -/
inductive AttributeValidationError : Type where
  | missingAttribute (name : Str) : AttributeValidationError
  | wrongType (name : Str) (expected : Str) : AttributeValidationError
deriving DecidableEq

/-- The attribute name an error reports. -/
def AttributeValidationError.attrName : AttributeValidationError → Str
  | .missingAttribute n => n
  | .wrongType n _ => n

/-- Expected-type string pushed by the `Number` arm. -/
def strNumberExpected : Str := "number".toList

/-- Expected-type string pushed by the `Boolean` arm. -/
def strBooleanExpected : Str := "boolean".toList

/-- Expected-type string pushed by the `Date` arms. -/
def strDateExpected : Str := "RFC3339 date string".toList

/-- One iteration of the validation loop of `Node::create` (node/node.rs
lines 202-247): the at-most-one error the iteration for `attr` pushes.
`rfc3339Ok` abstracts the external library check
`chrono::DateTime::parse_from_rfc3339(s).is_ok()`. -/
def checkAttr (rfc3339Ok : Str → Bool) (props : List (Str × Json))
    (attr : NodeTypeAttributeDefinition) : Option AttributeValidationError :=
  if attr.required then
    match lookupProp props attr.name with
    | none => some (.missingAttribute attr.name)
    | some value =>
      match attr.data_type with
      | .number =>
        if !value.isNumber then some (.wrongType attr.name strNumberExpected) else none
      | .boolean =>
        if !value.isBoolean then some (.wrongType attr.name strBooleanExpected) else none
      | .date =>
        match value.asStr with
        | some strVal =>
          if !rfc3339Ok strVal then some (.wrongType attr.name strDateExpected) else none
        | none => some (.wrongType attr.name strDateExpected)
      | .string => none
  else none

/-- The validation loop of `Node::create` (node/node.rs lines 200-248):
starts from an empty error vector and, walking the attribute definitions
in declaration order, pushes the error (if any) each iteration produces. -/
def validateAttributes (rfc3339Ok : Str → Bool)
    (attributes : List NodeTypeAttributeDefinition)
    (props : List (Str × Json)) : List AttributeValidationError :=
  attributes.foldl (fun errors attr => errors ++ (checkAttr rfc3339Ok props attr).toList) []

/-!  ## Query synthesis (`generate_props_clause`, utils.rs lines 15-31)  -/

/-- `s.replace("'", "\\'")`: backslash-escape every single quote. -/
def escapeSingleQuotes (s : Str) : Str :=
  s.flatMap (fun c => if c = '\'' then ['\\', '\''] else [c])

/-- Rendering of one property value inside the clause (the `match value`
of `generate_props_clause`): strings single-quoted with single quotes
escaped; numbers, booleans and null by their literal text; every other
value (arrays, objects) by the catch-all arm, which single-quotes the
value's compact JSON text with single quotes escaped. -/
def renderPropValue : Json → Str
  | .str s => '\'' :: (escapeSingleQuotes s ++ ['\''])
  | .num n => (toString n).toList
  | .bool b => (toString b).toList
  | .null => litNull
  | v => '\'' :: (escapeSingleQuotes v.render ++ ['\''])

/-- The clause builder `generate_props_clause` (utils.rs lines 15-31):
renders every entry as `key: value` and joins them with `", "` inside
braces.  The source iterates a `HashMap`, whose order is unspecified; the
model iterates the association list in list order. -/
def generate_props_clause (properties : List (Str × Json)) : Str :=
  '\x7b' ::
    ((List.intercalate [',', ' ']
      (properties.map (fun kv => kv.1 ++ ':' :: ' ' :: renderPropValue kv.2))) ++ ['\x7d'])

/-- Modelled from the spec (claim C4's reading of value rendering): a flat
scalar array is rendered as a bracketed, comma-joined list of its elements,
each element rendered by the same per-element scalar rules.  Declared only
to be compared against `renderPropValue`. -/
def specRenderPropValue : Json → Str
  | .str s => '\'' :: (escapeSingleQuotes s ++ ['\''])
  | .num n => (toString n).toList
  | .bool b => (toString b).toList
  | .null => litNull
  | .arr elems =>
    '[' :: ((List.intercalate [',', ' ']
      (elems.map (fun e =>
        match e with
        | .str s => '\'' :: (escapeSingleQuotes s ++ ['\''])
        | .num n => (toString n).toList
        | .bool b => (toString b).toList
        | .null => litNull
        | e => e.render))) ++ [']'])
  | v => '\'' :: (escapeSingleQuotes v.render ++ ['\''])

/-- Property clause as the spec's words predict it (same shape as
`generate_props_clause`, values rendered by `specRenderPropValue`). -/
def specPropsClause (properties : List (Str × Json)) : Str :=
  '\x7b' ::
    ((List.intercalate [',', ' ']
      (properties.map (fun kv => kv.1 ++ ':' :: ' ' :: specRenderPropValue kv.2))) ++ ['\x7d'])

/-!  ## Type-name normalization and lookup (edge/edge_types.rs lines 38-46,
node/node_types.rs lines 122-139)  -/

/-- Type-name normalization: `name.to_uppercase().replace(' ', "_")`,
written inline in `EdgeType::new` (edge/edge_types.rs line 40).
`NodeType::new` / `NodeType::from_name` call `crate::utils::normalize`,
whose definition is not under src/ — Modelled from the spec: "the
uppercase, underscore-joined form of a user-supplied type name"
("uppercase, spaces→underscores"), identical to the inline edge version.
Uppercasing is modelled per character (ASCII). -/
def normalize (name : Str) : Str :=
  (name.map Char.toUpper).map (fun c => if c = ' ' then '_' else c)

/-- The columns of a stored type-definition row that `from_name` reads. -/
structure NodeTypeRec : Type where
  id : Str
  graph_id : Str
  name : Str
  normalized_name : Str
deriving DecidableEq

/-- `NodeType::from_name` (node/node_types.rs lines 122-139): `SELECT *
FROM app_data.node_types WHERE graph_id = $1 AND normalized_name = $2`
with `$2 := normalize(name)`, `fetch_one` returning the first matching
row; the table is modelled as a row list. -/
def NodeType.from_name (store : List NodeTypeRec) (graph_id : Str) (name : Str) :
    Option NodeTypeRec :=
  store.find? (fun t => t.graph_id == graph_id && t.normalized_name == normalize name)

/-- Two characters that differ only in letter case, or are both drawn from
space/underscore (the "space-vs-underscore spelling" of claim C8). -/
def charVariant (c d : Char) : Bool :=
  (c.toUpper == d.toUpper) || ((c == ' ' || c == '_') && (d == ' ' || d == '_'))

/-- Two names that differ only in letter case or space-vs-underscore
spelling, position by position. -/
def nameVariant : Str → Str → Bool
  | [], [] => true
  | c :: cs, d :: ds => charVariant c d && nameVariant cs ds
  | _, _ => false

/-!  ## Wire-value decoding (`AgType::decode`, ag.rs lines 41-76)  -/

/-- Prepend a character to the first segment of a split. -/
def consHead (c : Char) : List Str → List Str
  | [] => [[c]]
  | s :: ss => (c :: s) :: ss

/-- Rust `str::split("::")`: the segments between non-overlapping,
left-to-right occurrences of the separator (always at least one segment). -/
def splitSep : Str → List Str
  | [] => [[]]
  | [c] => [[c]]
  | c :: d :: rest =>
    if c = ':' ∧ d = ':' then [] :: splitSep rest
    else consHead c (splitSep (d :: rest))

/-- Whether the string contains a `"::"` separator occurrence. -/
def hasSep : Str → Bool
  | [] => false
  | [_] => false
  | c :: d :: rest => (c = ':' ∧ d = ':' : Bool) || hasSep (d :: rest)

/-- Whitespace as `str::trim` removes it (ASCII subset of the Unicode
whitespace Rust uses). -/
def isTrimWs (c : Char) : Bool := c = ' ' || c = '\t' || c = '\n' || c = '\r'

/-- Rust `str::trim`. -/
def trimStr (s : Str) : Str :=
  ((s.dropWhile isTrimWs).reverse.dropWhile isTrimWs).reverse

/-- Rust `char::is_control` (the Unicode Cc category). -/
def isControl (c : Char) : Bool :=
  c.toNat < 0x20 || (0x7F ≤ c.toNat && c.toNat ≤ 0x9F)

/-!  ### JSON parsing (`serde_json::from_str`)

A fuel-indexed recursive-descent parser standing in for `serde_json`.
Modelled subset, faithful on every input the claims touch: numbers are
integer literals (fraction/exponent forms are rejected by the model) and
`\\u` escapes are rejected; serde itself also bounds recursion depth, which
the fuel mirrors. -/

/-- Parse-error placeholder (serde errors carry messages; nothing under
verification inspects them). -/
inductive JsonParseError : Type where
  | parseFailure : JsonParseError
deriving DecidableEq

/-- JSON insignificant whitespace. -/
def skipWs (s : Str) : Str :=
  s.dropWhile (fun c => c = ' ' || c = '\t' || c = '\n' || c = '\r')

/-- Single-character string escapes accepted by the model. -/
def escChar (e : Char) : Option Char :=
  if e = '"' ∨ e = '\\' ∨ e = '/' then some e
  else if e = 'n' then some '\x0A'
  else if e = 't' then some '\x09'
  else if e = 'r' then some '\x0D'
  else if e = 'b' then some '\x08'
  else if e = 'f' then some '\x0C'
  else none

/-- Body of a JSON string, after the opening quote; returns the decoded
content and the remainder after the closing quote. -/
def parseStringBody : Nat → Str → Except JsonParseError (Str × Str)
  | 0, _ => .error .parseFailure
  | _, [] => .error .parseFailure
  | fuel + 1, c :: rest =>
    if c = '"' then .ok ([], rest)
    else if c = '\\' then
      match rest with
      | [] => .error .parseFailure
      | e :: rest' =>
        match escChar e with
        | none => .error .parseFailure
        | some decoded =>
          match parseStringBody fuel rest' with
          | .error err => .error err
          | .ok (cs, r) => .ok (decoded :: cs, r)
    else if c.toNat < 0x20 then .error .parseFailure
    else
      match parseStringBody fuel rest with
      | .error err => .error err
      | .ok (cs, r) => .ok (c :: cs, r)

/-- Digit run of a JSON integer literal (leading zeros rejected as in the
JSON grammar); fraction and exponent markers after the digits are rejected
by the model (non-integer numbers are outside it). -/
def parseNatLit (s : Str) : Except JsonParseError (Nat × Str) :=
  let digits := s.takeWhile Char.isDigit
  let rest := s.drop digits.length
  match digits with
  | [] => .error .parseFailure
  | '0' :: _ :: _ => .error .parseFailure
  | _ =>
    match rest with
    | '.' :: _ => .error .parseFailure
    | 'e' :: _ => .error .parseFailure
    | 'E' :: _ => .error .parseFailure
    | _ => .ok (digits.foldl (fun acc c => acc * 10 + (c.toNat - 48)) 0, rest)

/-- Strip a literal keyword prefix, yielding the remainder on a match. -/
def stripLit : Str → Str → Option Str
  | [], s => some s
  | _ :: _, [] => none
  | k :: ks, c :: cs => if c = k then stripLit ks cs else none

mutual

/-- One JSON value (with leading whitespace), returning the remainder. -/
def parseValue : Nat → Str → Except JsonParseError (Json × Str)
  | 0, _ => .error .parseFailure
  | fuel + 1, s =>
    match skipWs s with
    | [] => .error .parseFailure
    | c :: r =>
      if c = '"' then
        match parseStringBody fuel r with
        | .error e => .error e
        | .ok (cs, rest) => .ok (.str cs, rest)
      else if c = '[' then
        match skipWs r with
        | ']' :: rest => .ok (.arr [], rest)
        | _ =>
          match parseElems fuel r with
          | .error e => .error e
          | .ok (xs, rest) => .ok (.arr xs, rest)
      else if c = '\x7b' then
        match skipWs r with
        | '\x7d' :: rest => .ok (.obj [], rest)
        | _ =>
          match parseFields fuel r with
          | .error e => .error e
          | .ok (fs, rest) => .ok (.obj fs, rest)
      else if c = '-' then
        match parseNatLit r with
        | .error e => .error e
        | .ok (n, rest) => .ok (.num (-(n : Int)), rest)
      else if c.isDigit then
        match parseNatLit (c :: r) with
        | .error e => .error e
        | .ok (n, rest) => .ok (.num (n : Int), rest)
      else
        match stripLit litNull (c :: r) with
        | some rest => .ok (.null, rest)
        | none =>
          match stripLit litTrue (c :: r) with
          | some rest => .ok (.bool true, rest)
          | none =>
            match stripLit litFalse (c :: r) with
            | some rest => .ok (.bool false, rest)
            | none => .error .parseFailure

/-- Array elements up to and including the closing bracket. -/
def parseElems : Nat → Str → Except JsonParseError (List Json × Str)
  | 0, _ => .error .parseFailure
  | fuel + 1, s =>
    match parseValue fuel s with
    | .error e => .error e
    | .ok (v, rest) =>
      match skipWs rest with
      | ',' :: r2 =>
        (match parseElems fuel r2 with
         | .error e => .error e
         | .ok (xs, r) => .ok (v :: xs, r))
      | ']' :: r2 => .ok ([v], r2)
      | _ => .error .parseFailure

/-- Object fields up to and including the closing brace. -/
def parseFields : Nat → Str → Except JsonParseError (List (Str × Json) × Str)
  | 0, _ => .error .parseFailure
  | fuel + 1, s =>
    match skipWs s with
    | '"' :: r =>
      (match parseStringBody fuel r with
       | .error e => .error e
       | .ok (k, r1) =>
         match skipWs r1 with
         | ':' :: r2 =>
           (match parseValue fuel r2 with
            | .error e => .error e
            | .ok (v, r3) =>
              match skipWs r3 with
              | ',' :: r4 =>
                (match parseFields fuel r4 with
                 | .error e => .error e
                 | .ok (fs, r) => .ok ((k, v) :: fs, r))
              | '\x7d' :: r4 => .ok ([(k, v)], r4)
              | _ => .error .parseFailure)
         | _ => .error .parseFailure)
    | _ => .error .parseFailure

end

/-- `serde_json::from_str::<Value>`-style entry point: one value, then
only trailing whitespace. -/
def parseJson (s : Str) : Except JsonParseError Json :=
  match parseValue (4 * s.length + 16) s with
  | .error e => .error e
  | .ok (v, rest) => if skipWs rest = [] then .ok v else .error .parseFailure

/-!  ### The `Vertex` struct and `AgType::decode`  -/

/-- `Vertex` (ag.rs lines 27-31): `label: String`, `properties: JsonValue`. -/
structure Vertex : Type where
  label : Str
  properties : Json

/-- Field name `label`. -/
def strLabel : Str := "label".toList

/-- Field name `properties`. -/
def strProperties : Str := "properties".toList

/-- Serde struct deserialization of `Vertex` from a parsed object's
fields: `label` must be a string, `properties` is any value, unknown
fields are ignored (serde default), duplicate or missing fields error. -/
def vertexOfFields : List (Str × Json) → Option Str → Option Json →
    Except JsonParseError Vertex
  | [], some l, some p => .ok ⟨l, p⟩
  | [], _, _ => .error .parseFailure
  | (k, v) :: rest, accLabel, accProps =>
    if k = strLabel then
      match accLabel, v with
      | some _, _ => .error .parseFailure
      | none, .str s => vertexOfFields rest (some s) accProps
      | none, _ => .error .parseFailure
    else if k = strProperties then
      match accProps with
      | some _ => .error .parseFailure
      | none => vertexOfFields rest accLabel (some v)
    else vertexOfFields rest accLabel accProps

/-- `serde_json` deserialization of a `Vertex` from a JSON value. -/
def vertexOfJson : Json → Except JsonParseError Vertex
  | .obj fields => vertexOfFields fields none none
  | _ => .error .parseFailure

/-- `serde_json::from_str::<Vertex>(content)`. -/
def parseVertex (content : Str) : Except JsonParseError Vertex :=
  match parseJson content with
  | .error e => .error e
  | .ok v => vertexOfJson v

/-- `serde_json::to_value(vertex)`: the struct serializes its fields in
declaration order. -/
def Vertex.toJson (v : Vertex) : Json :=
  .obj [(strLabel, .str v.label), (strProperties, v.properties)]

/-- The error outcomes of `AgType::decode` (ag.rs): the
"Invalid format: expected content::type" error (spec: `MalformedWireValue`),
the "Unsupported type: expected 'vertex'" error (spec:
`UnsupportedWireType`), and a propagated serde error. -/
inductive WireDecodeError : Type where
  | malformedWireValue : WireDecodeError
  | unsupportedWireType : WireDecodeError
  | jsonError (e : JsonParseError) : WireDecodeError
deriving DecidableEq

/-- The type tag `vertex`. -/
def strVertex : Str := "vertex".toList

/-- The tag dispatch of `AgType::decode` once content and type tag are
extracted (ag.rs lines 59-69): on tag `vertex`, strip leading control
characters from the content and parse it as a `Vertex`, re-serializing the
result; any other tag is rejected. -/
def processVertex (content : Str) (tag : Str) : Except WireDecodeError Json :=
  if tag = strVertex then
    match parseVertex (content.dropWhile isControl) with
    | .error e => .error (.jsonError e)
    | .ok v => .ok v.toJson
  else .error .unsupportedWireType

/-- `AgType::decode` (ag.rs lines 41-76): split the raw string on `"::"`;
with fewer than two parts fail as malformed; otherwise the content is the
FIRST part (`parts[0]`) trimmed and the type tag is the LAST part
(`parts[parts.len() - 1]`) trimmed. -/
def AgType.decode (s : Str) : Except WireDecodeError Json :=
  match splitSep s with
  | p :: q :: rest => processVertex (trimStr p) (trimStr (List.getLastD rest q))
  | _ => .error .malformedWireValue

/-- Modelled from the spec (claim C5's reading): the LAST `"::"` occurrence
is the delimiter — the type tag is the segment after it and the content
passed to JSON parsing is everything before it.  Declared only to be
compared against `AgType.decode`. -/
def lastSplitDecode (s : Str) : Except WireDecodeError Json :=
  match splitSep s with
  | p :: q :: rest =>
    processVertex (trimStr (List.intercalate [':', ':'] ((p :: q :: rest).dropLast)))
      (trimStr (List.getLastD rest q))
  | _ => .error .malformedWireValue

/-- The first segment of the split (everything before the first `"::"`). -/
def firstSeg (s : Str) : Str := (splitSep s).headD []

/-- The last segment of the split (everything after the last `"::"`
occurrence of the non-overlapping left-to-right scan). -/
def lastSeg (s : Str) : Str :=
  match splitSep s with
  | p :: rest => List.getLastD rest p
  | [] => []

/-!  ## Entity façade: `Node::create` (node/node.rs lines 188-283) and the
`create_node` endpoint (node/endpoints.rs lines 324-426)  -/

/-- `CreateNodeRequest` (node/endpoints.rs lines 311-315). -/
structure CreateNodeRequest : Type where
  node_type : Str
  properties : List (Str × Json)

/-- The read-side database operations the node façade performs, modelled
as pure lookups: `NodeType::from_id` (by graph id and type id; `none`
models the `fetch_one` row-not-found error),
`NodeTypeAttributeDefinition::from_node_type` (by type id), and the
`Node::get_by_name` existence pre-check of the endpoint. -/
structure GraphDb : Type where
  typeFromId : Str → Str → Option NodeTypeRec
  attrsOf : Str → List NodeTypeAttributeDefinition
  nameExists : Str → Str → Str → Bool

/-- `CreateNodeError` (node/node.rs lines 25-32). -/
inductive CreateNodeError : Type where
  | validationError (errors : List AttributeValidationError) : CreateNodeError
  | databaseError : CreateNodeError
deriving DecidableEq

/-- Property key `created_by`. -/
def strCreatedBy : Str := "created_by".toList

/-- Property key `created_at`. -/
def strCreatedAt : Str := "created_at".toList

/-- Property key `name`. -/
def strName : Str := "name".toList

/-- `HashMap::insert`: replace any existing binding of the key (the
position of the binding in the association list mirrors insertion order,
which the `HashMap` leaves unspecified anyway). -/
def insertProp (props : List (Str × Json)) (k : Str) (v : Json) :
    List (Str × Json) :=
  props.filter (fun p => !(p.1 == k)) ++ [(k, v)]

/-- The cypher CREATE statement text of `Node::create` (node/node.rs
lines 272-275). -/
def createQueryText (graph_id node_type : Str) (clause : Str) : Str :=
  "SELECT * FROM cypher('".toList ++ graph_id
    ++ "', $$ CREATE (n:".toList ++ node_type ++ ' ' :: clause
    ++ ") RETURN n $$) as (row agtype)".toList

/-- `Node::create` (node/node.rs lines 188-283), returning the result
together with the list of write (CREATE) queries it executed.  Stages, in
source order: resolve the node type by id (failure propagates the sqlx
error as `DatabaseError` with nothing written); fetch the attribute
definitions; run the validation loop and stop with `ValidationError` if it
produced any error; enrich the properties with `created_by` and
`created_at` (`now` abstracts `chrono::Utc::now().to_rfc3339()`);
synthesize the property clause and execute the CREATE query. -/
def Node.create (rfc3339Ok : Str → Bool) (db : GraphDb)
    (request : CreateNodeRequest) (created_by : Str) (now : Str)
    (graph_id : Str) : Except CreateNodeError Unit × List Str :=
  match db.typeFromId graph_id request.node_type with
  | none => (.error .databaseError, [])
  | some node_type =>
    let attributes := db.attrsOf node_type.id
    let errors := validateAttributes rfc3339Ok attributes request.properties
    if errors.isEmpty then
      let props := insertProp
        (insertProp request.properties strCreatedBy (.str created_by))
        strCreatedAt (.str now)
      let clause := generate_props_clause props
      (.ok (), [createQueryText graph_id request.node_type clause])
    else (.error (.validationError errors), [])

/-- Endpoint-level outcomes of `create_node` relevant to the model
(authentication and tenancy checks live outside the verified core). -/
inductive EndpointOutcome : Type where
  | ok : EndpointOutcome
  | badRequestUnknownType : EndpointOutcome
  | badRequestNameMissing : EndpointOutcome
  | badRequestDuplicateName : EndpointOutcome
  | validationFailed (errors : List AttributeValidationError) : EndpointOutcome
  | internalServerError : EndpointOutcome
  | panicked : EndpointOutcome
deriving DecidableEq

/-- The `create_node` endpoint (node/endpoints.rs lines 324-426) from the
type-existence check on (the earlier auth/org steps only read), returning
the outcome and the write queries executed: `NodeType::from_id` failure →
"Node type does not exist" with nothing written; missing `name` property →
bad request; a non-string `name` hits `.as_str().unwrap()` and panics;
an existing node of the same type and name → bad request; otherwise
`Node::create` runs and its error is mapped. -/
def create_node (rfc3339Ok : Str → Bool) (db : GraphDb)
    (request : CreateNodeRequest) (user : Str) (now : Str)
    (graph_id : Str) : EndpointOutcome × List Str :=
  match db.typeFromId graph_id request.node_type with
  | none => (.badRequestUnknownType, [])
  | some _ =>
    match lookupProp request.properties strName with
    | none => (.badRequestNameMissing, [])
    | some v =>
      match v.asStr with
      | none => (.panicked, [])
      | some name =>
        if db.nameExists graph_id request.node_type name then
          (.badRequestDuplicateName, [])
        else
          match Node.create rfc3339Ok db request user now graph_id with
          | (.ok _, writes) => (.ok, writes)
          | (.error (.validationError errors), writes) =>
            (.validationFailed errors, writes)
          | (.error .databaseError, writes) => (.internalServerError, writes)

/-!  ## `Node::list` (node/node.rs lines 117-158)  -/

/-- Checked unsigned 32-bit subtraction (debug-build semantics: underflow
panics, modelled as `none`). -/
def u32CheckedSub (a b : Nat) : Option Nat :=
  if b ≤ a then some (a - b) else none

/-- Checked unsigned 32-bit multiplication (debug-build semantics:
overflow panics, modelled as `none`). -/
def u32CheckedMul (a b : Nat) : Option Nat :=
  if a * b < 2 ^ 32 then some (a * b) else none

/-- The offset computation of `Node::list` (node/node.rs lines 123-125):
`page.unwrap_or(1)`, then `(page - 1) * page_size` with `page_size = 5`,
in unsigned 32-bit arithmetic; `none` models the arithmetic panic. -/
def listOffset (page : Option Nat) : Option Nat :=
  match u32CheckedSub (page.getD 1) 1 with
  | none => none
  | some d => u32CheckedMul d 5

/-- Error outcomes of `Node::list`: a row-decode failure surfaced by
`fetch_all` (the sqlx error wrapping `AgType::decode`'s failure), or a
per-row failure of `Node::try_from` (node-type lookup by label, or
non-object properties) surfaced through `try_join_all` as
`sqlx::Error::Decode`. -/
inductive ListError : Type where
  | fetchDecode (e : WireDecodeError) : ListError
  | rowDecode : ListError
deriving DecidableEq

/-- A listed node: `Node` (node/node.rs lines 18-23). -/
structure NodeRec : Type where
  graph_id : Str
  node_type : Str
  properties : List (Str × Json)

/-- Outcome of `Node::list`: a panic (the `.unwrap()` on `Vertex::try_from`
or an arithmetic overflow), an error `Result`, or the node list. -/
inductive ListOutcome : Type where
  | panicked : ListOutcome
  | errored (e : ListError) : ListOutcome
  | ok (nodes : List NodeRec) : ListOutcome

/-- `Node::try_from` (node/node.rs lines 78-103): resolve the node type of
the vertex's label via `NodeType::from_id`, then deserialize the vertex's
properties into a map (failing when they are not a JSON object). -/
def nodeOfVertex (db : GraphDb) (graph_id : Str) (v : Vertex) :
    Except Unit NodeRec :=
  match db.typeFromId graph_id v.label with
  | none => .error ()
  | some nt =>
    match v.properties with
    | .obj fields => .ok ⟨graph_id, nt.id, fields⟩
    | _ => .error ()

/-- `Node::list` (node/node.rs lines 117-158), the returned database rows
given as the raw `agtype` texts `raws`: compute the offset (panicking on
32-bit under/overflow before any query); decode every row via
`AgType::decode` inside `fetch_all`, any failure aborting the whole call
with that error; convert each decoded value back to a `Vertex` with
`.unwrap()` (panicking if it fails); resolve each vertex to a `Node`,
`try_join_all` surfacing the first failure as an error. -/
def Node.list (db : GraphDb) (graph_id : Str) (page : Option Nat)
    (raws : List Str) : ListOutcome :=
  match listOffset page with
  | none => .panicked
  | some _ =>
    match exMapM AgType.decode raws with
    | .error e => .errored (.fetchDecode e)
    | .ok jsons =>
      match exMapM vertexOfJson jsons with
      | .error _ => .panicked
      | .ok vertices =>
        match exMapM (nodeOfVertex db graph_id) vertices with
        | .error _ => .errored .rowDecode
        | .ok nodes => .ok nodes

/-!  ## Concrete instances used by the claim theorems and witnesses  -/

/-- Attribute name `age`. -/
def strAge : Str := "age".toList

/-- The required Number attribute `age` of claim C1. -/
def ageAttr : NodeTypeAttributeDefinition := ⟨strAge, .number, true⟩

/-- A required String attribute named `name`. -/
def nameAttr : NodeTypeAttributeDefinition := ⟨strName, .string, true⟩

/-- The string literal `"12"`. -/
def str12 : Str := "12".toList

/-- Property key `a`. -/
def strA : Str := ['a']

/-- The string `O'Brien`. -/
def strOBrien : Str := "O'Brien".toList

/-- Property key `count`. -/
def strCount : Str := "count".toList

/-- The clause `generate_props_clause` produces for
`{"name": "O'Brien", "count": 3}` (in that iteration order). -/
def expectedOBrienClause : Str := "\x7bname: 'O\\'Brien', count: 3\x7d".toList

/-- A wire string whose content contains `"::"` itself: the part before
the first `"::"` is a valid `Vertex` JSON object, while everything before
the last `"::"` is not valid JSON. -/
def wireC5 : Str := "\x7b\"label\":\"x\",\"properties\":\x7b\x7d\x7d::junk::vertex".toList

/-- The wire string `{}::edge` of claim C6. -/
def edgeWire : Str := "\x7b\x7d::edge".toList

/-- A wire string with no `"::"` separator. -/
def noSepWire : Str := "novertex".toList

/-- A well-formed vertex wire string. -/
def goodWire : Str := "\x7b\"label\":\"x\",\"properties\":\x7b\x7d\x7d::vertex".toList

/-- The value `AgType.decode` produces for `goodWire`. -/
def goodWireJson : Json := .obj [(strLabel, .str ['x']), (strProperties, .obj [])]

/-- A database model with no stored types, no attributes and no existing
nodes. -/
def emptyDb : GraphDb := ⟨fun _ _ => none, fun _ => [], fun _ _ _ => false⟩

/-- A creation request for a type `T` with no properties. -/
def reqT : CreateNodeRequest := ⟨['T'], []⟩

/-- The name `Power Plant`. -/
def powerPlantName : Str := "Power Plant".toList

/-- The normalized form `POWER_PLANT`. -/
def powerPlantLabel : Str := "POWER_PLANT".toList

/-- The lookup spelling `power plant`. -/
def powerPlantLower : Str := "power plant".toList

/-- A stored node-type row for `Power Plant` in graph `g`. -/
def powerPlantRec : NodeTypeRec := ⟨"vABCD".toList, ['g'], powerPlantName, powerPlantLabel⟩

/-- The smallest page number whose offset `(page - 1) * 5` no longer fits
in unsigned 32-bit arithmetic. -/
def hugePage : Nat := 858993461

/-- A database model resolving every type id to the `Power Plant` type. -/
def oneTypeDb : GraphDb := ⟨fun _ _ => some powerPlantRec, fun _ => [], fun _ _ _ => false⟩

/-- The node `Node::list` produces from `goodWire` under `oneTypeDb`. -/
def goodNode : NodeRec := ⟨['g'], powerPlantRec.id, []⟩

/-!  ## Helper lemmas  -/

/-- Pushing at most one element per iteration onto an accumulator is a
`filterMap`. -/
theorem foldl_push_eq_filterMap {α β : Type} (f : α → Option β) :
    ∀ (l : List α) (acc : List β),
      l.foldl (fun es a => es ++ (f a).toList) acc = acc ++ l.filterMap f
  | [], acc => by simp
  | a :: l, acc => by
    rw [List.foldl_cons, foldl_push_eq_filterMap f l, List.filterMap_cons]
    cases f a <;> simp

/-- The validation loop of `Node::create` is the `filterMap` of the
per-attribute check over the attribute list: one walk in declaration
order, collecting every error. -/
theorem validateAttributes_eq_filterMap (p : Str → Bool)
    (attributes : List NodeTypeAttributeDefinition) (props : List (Str × Json)) :
    validateAttributes p attributes props = attributes.filterMap (checkAttr p props) := by
  unfold validateAttributes
  rw [foldl_push_eq_filterMap]
  rfl

/-- Any error the per-attribute check produces is about that attribute:
the attribute is required and the error carries its name. -/
theorem checkAttr_some (p : Str → Bool) (props : List (Str × Json))
    (attr : NodeTypeAttributeDefinition) (e : AttributeValidationError)
    (h : checkAttr p props attr = some e) :
    attr.required = true ∧ e.attrName = attr.name := by
  unfold checkAttr at h
  by_cases hr : attr.required
  · refine ⟨hr, ?_⟩
    rw [if_pos hr] at h
    cases hl : lookupProp props attr.name <;> simp only [hl] at h
    · injection h with h
      rw [← h]
      rfl
    · rename_i value
      cases hdt : attr.data_type <;> simp only [hdt] at h
      · cases h
      · split at h
        · injection h with h
          rw [← h]
          rfl
        · cases h
      · split at h
        · injection h with h
          rw [← h]
          rfl
        · cases h
      · cases hs : value.asStr <;> simp only [hs] at h
        · injection h with h
          rw [← h]
          rfl
        · split at h
          · injection h with h
            rw [← h]
            rfl
          · cases h
  · rw [if_neg hr] at h
    cases h

/-!  ## Claim C1  -/

/-- C1: in the validation performed by `Node::create`, with the attribute
list consisting of the required Number attribute `age`: the empty property
map yields exactly the error `Missing "age"`; `{"age": "12"}` yields
exactly `WrongType "age" "number"`; `{"age": 12}` yields no error.  In
general, for a required attribute whose value is present, the Number check
accepts exactly numeric JSON literals, the Boolean check exactly boolean
literals, and the Date check exactly string literals accepted by the
RFC 3339 parser. -/
theorem c1_node_create_validation_checks :
    (∀ p : Str → Bool,
        validateAttributes p [ageAttr] [] = [.missingAttribute strAge]
      ∧ validateAttributes p [ageAttr] [(strAge, Json.str str12)]
          = [.wrongType strAge strNumberExpected]
      ∧ validateAttributes p [ageAttr] [(strAge, Json.num 12)] = [])
  ∧ (∀ (p : Str → Bool) (props : List (Str × Json)) (n : Str) (v : Json),
      lookupProp props n = some v →
        (checkAttr p props ⟨n, .number, true⟩ = none ↔ v.isNumber = true)
      ∧ (checkAttr p props ⟨n, .boolean, true⟩ = none ↔ v.isBoolean = true)
      ∧ (checkAttr p props ⟨n, .date, true⟩ = none ↔ ∃ s, v = Json.str s ∧ p s = true)) := by
  constructor
  · intro p
    refine ⟨rfl, rfl, rfl⟩
  · intro p props n v hv
    refine ⟨?_, ?_, ?_⟩
    · simp only [checkAttr, hv, if_pos]
      cases v <;> simp [Json.isNumber]
    · simp only [checkAttr, hv, if_pos]
      cases v <;> simp [Json.isBoolean]
    · simp only [checkAttr, hv, if_pos]
      cases v with
      | str s => simp [Json.asStr]
      | null => simp [Json.asStr]
      | bool b => simp [Json.asStr]
      | num n => simp [Json.asStr]
      | arr l => simp [Json.asStr]
      | obj l => simp [Json.asStr]

/-- Witness for C1 at concrete inputs. -/
theorem c1_node_create_validation_checks_witness :
    (checkAttr (fun _ => true) [(strAge, Json.num 12)] ⟨strAge, .number, true⟩ = none
      ↔ (Json.num 12).isNumber = true)
    ∧ (checkAttr (fun _ => false) [(strAge, Json.str str12)] ⟨strAge, .date, true⟩ = none
      ↔ ∃ s, Json.str str12 = Json.str s ∧ (fun _ => false) s = true) :=
  ⟨(c1_node_create_validation_checks.2 (fun _ => true)
      [(strAge, Json.num 12)] strAge (Json.num 12) rfl).1,
   (c1_node_create_validation_checks.2 (fun _ => false)
      [(strAge, Json.str str12)] strAge (Json.str str12) rfl).2.2⟩

/-!  ## Claim C2  -/

/-- C2: the validation run during node creation collects all attribute
errors in one walk (it equals the `filterMap` of the per-attribute check
over the attribute list, so it never stops at the first error and the
error list follows the attributes' declaration order); in particular a
property map violating two required attributes yields exactly the two
errors, in declaration order. -/
theorem c2_validation_collects_all_errors_in_order :
    (∀ (p : Str → Bool) (attributes : List NodeTypeAttributeDefinition)
        (props : List (Str × Json)),
      validateAttributes p attributes props = attributes.filterMap (checkAttr p props))
  ∧ (∀ p : Str → Bool,
      validateAttributes p [ageAttr, nameAttr] []
        = [.missingAttribute strAge, .missingAttribute strName]) :=
  ⟨validateAttributes_eq_filterMap, fun _ => rfl⟩

/-!  ## Claim C3  -/

/-- C3: every error the node-creation validator produces names a required
attribute of the list; a non-required attribute never contributes an
error, however malformed its value; and a present value for a required
String attribute is accepted whatever its JSON kind. -/
theorem c3_only_required_attributes_error :
    ∀ (p : Str → Bool) (attributes : List NodeTypeAttributeDefinition)
      (props : List (Str × Json)),
      (∀ e ∈ validateAttributes p attributes props,
        ∃ attr ∈ attributes, attr.required = true ∧ e.attrName = attr.name)
      ∧ (∀ attr : NodeTypeAttributeDefinition, attr.required = false →
          checkAttr p props attr = none)
      ∧ (∀ (n : Str) (v : Json), lookupProp props n = some v →
          checkAttr p props ⟨n, .string, true⟩ = none) := by
  intro p attributes props
  refine ⟨?_, ?_, ?_⟩
  · intro e he
    rw [validateAttributes_eq_filterMap] at he
    obtain ⟨attr, hmem, hsome⟩ := List.mem_filterMap.mp he
    exact ⟨attr, hmem, checkAttr_some p props attr e hsome⟩
  · intro attr hreq
    unfold checkAttr
    rw [hreq]
    rfl
  · intro n v hv
    simp only [checkAttr, hv, if_pos]

/-- Witness for C3 at concrete inputs. -/
theorem c3_only_required_attributes_error_witness :
    checkAttr (fun _ => true) [(strName, Json.num 7)] ⟨strName, .string, true⟩ = none
    ∧ checkAttr (fun _ => true) [(strName, Json.num 7)] ⟨strName, .date, false⟩ = none
    ∧ ∃ attr ∈ [ageAttr],
        attr.required = true ∧ (AttributeValidationError.missingAttribute strAge).attrName = attr.name :=
  ⟨(c3_only_required_attributes_error (fun _ => true) [] [(strName, Json.num 7)]).2.2
      strName (Json.num 7) rfl,
   (c3_only_required_attributes_error (fun _ => true) [] [(strName, Json.num 7)]).2.1
      ⟨strName, .date, false⟩ rfl,
   (c3_only_required_attributes_error (fun _ => true) [ageAttr] []).1
      (.missingAttribute strAge) (by decide)⟩

/-!  ## Claim C4  -/

/-- C4 counterexample: `generate_props_clause` does not render a flat
scalar array as a bracketed, comma-joined list of per-element renderings
(as the claim states); on `{"a": [1, 2]}` it takes the catch-all arm and
produces `{a: '[1,2]'}` — the array's compact JSON text, single-quoted —
while the claim's reading predicts `{a: [1, 2]}`. -/
theorem c4_array_rendering_counterexample :
    generate_props_clause [(strA, Json.arr [Json.num 1, Json.num 2])]
      ≠ specPropsClause [(strA, Json.arr [Json.num 1, Json.num 2])]
    ∧ generate_props_clause [(strA, Json.arr [Json.num 1, Json.num 2])]
      = "\x7ba: '[1,2]'\x7d".toList := by
  refine ⟨?_, rfl⟩
  decide

/-- C4 (amended): `generate_props_clause` renders each value by its JSON
kind — strings single-quoted with internal single quotes
backslash-escaped, numbers and booleans by their literal text form, null
as the literal null, and any array (or object) by its compact JSON text,
single-quoted with internal single quotes backslash-escaped; the map
`{"name": "O'Brien", "count": 3}` yields the clause
`{name: 'O\'Brien', count: 3}`, containing the escaped string and the
unquoted literal `3`. -/
theorem c4_value_rendering_amended :
    (∀ (k : Str) (s : Str),
      generate_props_clause [(k, Json.str s)]
        = '\x7b' :: (k ++ ':' :: ' ' :: '\'' :: (escapeSingleQuotes s ++ ['\'', '\x7d'])))
  ∧ (∀ (k : Str) (n : Int),
      generate_props_clause [(k, Json.num n)]
        = '\x7b' :: (k ++ ':' :: ' ' :: ((toString n).toList ++ ['\x7d'])))
  ∧ (∀ (k : Str) (b : Bool),
      generate_props_clause [(k, Json.bool b)]
        = '\x7b' :: (k ++ ':' :: ' ' :: ((toString b).toList ++ ['\x7d'])))
  ∧ (∀ k : Str,
      generate_props_clause [(k, Json.null)]
        = '\x7b' :: (k ++ ':' :: ' ' :: (litNull ++ ['\x7d'])))
  ∧ (∀ (k : Str) (elems : List Json),
      generate_props_clause [(k, Json.arr elems)]
        = '\x7b' :: (k ++ ':' :: ' ' :: '\''
            :: (escapeSingleQuotes (Json.arr elems).render ++ ['\'', '\x7d'])))
  ∧ generate_props_clause [(strName, Json.str strOBrien), (strCount, Json.num 3)]
      = expectedOBrienClause := by
  refine ⟨?_, ?_, ?_, ?_, ?_, rfl⟩ <;>
    intros <;>
    simp [generate_props_clause, renderPropValue, List.intercalate]

/-!  ## Split lemmas for the wire decoder  -/

/-- `consHead` never produces an empty split. -/
theorem consHead_ne_nil (c : Char) : ∀ l : List Str, consHead c l ≠ []
  | [] => by simp [consHead]
  | s :: ss => by simp [consHead]

/-- `splitSep` always yields at least one segment. -/
theorem splitSep_ne_nil : ∀ s : Str, splitSep s ≠ []
  | [] => by simp [splitSep]
  | [c] => by simp [splitSep]
  | c :: d :: rest => by
    unfold splitSep
    split
    · simp
    · exact consHead_ne_nil c (splitSep (d :: rest))

/-- Without a `"::"` occurrence, the split is the whole string. -/
theorem splitSep_of_hasSep_false : ∀ s : Str, hasSep s = false → splitSep s = [s]
  | [], _ => rfl
  | [c], _ => rfl
  | c :: d :: rest, h => by
    have h' := h
    unfold hasSep at h'
    rw [Bool.or_eq_false_iff] at h'
    obtain ⟨h1, h2⟩ := h'
    unfold splitSep
    rw [if_neg (by simpa using h1)]
    rw [splitSep_of_hasSep_false (d :: rest) h2]
    simp [consHead]

/-- With a `"::"` occurrence, the split has at least two segments. -/
theorem splitSep_length_of_hasSep : ∀ s : Str, hasSep s = true → 2 ≤ (splitSep s).length
  | c :: d :: rest, h => by
    have h' := h
    unfold hasSep at h'
    rw [Bool.or_eq_true] at h'
    unfold splitSep
    by_cases hcd : c = ':' ∧ d = ':'
    · rw [if_pos hcd]
      cases hs : splitSep rest
      · exact absurd hs (splitSep_ne_nil rest)
      · simp
    · rw [if_neg hcd]
      have h2 : hasSep (d :: rest) = true := by
        rcases h' with h' | h'
        · exact absurd (by simpa using h') hcd
        · exact h'
      have ih := splitSep_length_of_hasSep (d :: rest) h2
      cases hs : splitSep (d :: rest)
      · exact absurd hs (splitSep_ne_nil (d :: rest))
      · rw [hs] at ih
        simpa [consHead] using ih

/-- Splitting `a ++ "::" ++ b` when `a` contains no separator and does not
end in a colon: the first segment is exactly `a`, and the remaining
segments are those of `b`. -/
theorem splitSep_append : ∀ a b : Str, hasSep a = false → a.getLast? ≠ some ':' →
    splitSep (a ++ ':' :: ':' :: b) = a :: splitSep b
  | [], b, _, _ => by simp [splitSep]
  | [c], b, _, h2 => by
    have hc : ¬ c = ':' := by
      intro hc
      exact h2 (by simp [hc])
    simp [splitSep, consHead, hc]
  | c :: d :: rest, b, h1, h2 => by
    have h1' := h1
    unfold hasSep at h1'
    rw [Bool.or_eq_false_iff] at h1'
    obtain ⟨hcd, hrest⟩ := h1'
    have h2' : (d :: rest).getLast? ≠ some ':' := by
      simpa [List.getLast?_cons_cons] using h2
    have ih := splitSep_append (d :: rest) b hrest h2'
    simp only [List.cons_append] at ih ⊢
    have hcond : ¬(c = ':' ∧ d = ':') := by simpa using hcd
    simp only [splitSep, hcond, if_false]
    rw [ih]
    simp [consHead]

/-!  ## Claim C5  -/

/-- C5 counterexample: on the wire string
`{"label":"x","properties":{}}::junk::vertex`, whose content itself
contains `"::"`, `AgType::decode` succeeds — it passes everything before
the FIRST `"::"` to JSON parsing — while the claim's reading (content =
everything before the LAST `"::"`, here
`{"label":"x","properties":{}}::junk`) fails to parse; so the decoder does
not treat the last occurrence as the content boundary. -/
theorem c5_first_segment_counterexample :
    exIsOk (AgType.decode wireC5) = true
    ∧ exIsOk (lastSplitDecode wireC5) = false := by
  constructor
  · rfl
  · rfl

/-- C5 (amended): for every raw wire string containing at least one
`"::"`, the decoder takes the type tag from the last segment of the
non-overlapping left-to-right split on `"::"`, but the content passed to
JSON parsing is everything before the FIRST `"::"` occurrence (trimmed),
even when the remainder of the string itself contains `"::"`. -/
theorem c5_decode_split_amended (a b : Str) (h1 : hasSep a = false)
    (h2 : a.getLast? ≠ some ':') :
    AgType.decode (a ++ ':' :: ':' :: b)
      = processVertex (trimStr a) (trimStr (lastSeg b)) := by
  unfold AgType.decode
  rw [splitSep_append a b h1 h2]
  cases hs : splitSep b
  · exact absurd hs (splitSep_ne_nil b)
  · rename_i q rest
    simp only [lastSeg, hs, List.getLastD_cons]

/-- Witness for C5 (amended) at a concrete input: content `x`, remainder
`y::vertex`. -/
theorem c5_decode_split_amended_witness :
    AgType.decode (['x'] ++ ':' :: ':' :: "y::vertex".toList)
      = processVertex (trimStr ['x']) (trimStr (lastSeg "y::vertex".toList)) :=
  c5_decode_split_amended ['x'] "y::vertex".toList (by decide) (by decide)

/-!  ## Claim C6  -/

/-- C6: the wire decoder fails with the malformed-wire-value error when
the string contains no `"::"` at all; fails with the unsupported-type
error whenever the extracted (trimmed) type tag differs from `vertex` — in
particular on `{}::edge`; and a success is possible only with tag `vertex`
and content that parses as a `Vertex`, the result being that vertex
re-serialized (never a partial success). -/
theorem c6_decode_error_taxonomy :
    (∀ s : Str, hasSep s = false → AgType.decode s = .error .malformedWireValue)
  ∧ (∀ s : Str, hasSep s = true → trimStr (lastSeg s) ≠ strVertex →
      AgType.decode s = .error .unsupportedWireType)
  ∧ (∀ (s : Str) (j : Json), AgType.decode s = .ok j →
      trimStr (lastSeg s) = strVertex
      ∧ ∃ w : Vertex,
          parseVertex ((trimStr (firstSeg s)).dropWhile isControl) = .ok w
          ∧ j = w.toJson)
  ∧ AgType.decode edgeWire = .error .unsupportedWireType := by
  refine ⟨?_, ?_, ?_, rfl⟩
  · intro s h
    unfold AgType.decode
    rw [splitSep_of_hasSep_false s h]
  · intro s h htag
    have hlen := splitSep_length_of_hasSep s h
    unfold AgType.decode
    cases hs : splitSep s with
    | nil => exact absurd hs (splitSep_ne_nil s)
    | cons p tail =>
      cases tail with
      | nil =>
        rw [hs] at hlen
        simp at hlen
      | cons q rest =>
        have hval : trimStr (lastSeg s) = trimStr (List.getLastD rest q) := by
          simp only [lastSeg, hs, List.getLastD_cons]
        rw [hval] at htag
        simp only [hs]
        unfold processVertex
        rw [if_neg htag]
  · intro s j h
    unfold AgType.decode at h
    cases hs : splitSep s with
    | nil => exact absurd hs (splitSep_ne_nil s)
    | cons p tail =>
      cases tail with
      | nil =>
        simp only [hs] at h
        exact Except.noConfusion h
      | cons q rest =>
        simp only [hs] at h
        unfold processVertex at h
        have hfirst : firstSeg s = p := by simp [firstSeg, hs]
        have hlast : lastSeg s = List.getLastD rest q := by
          simp only [lastSeg, hs, List.getLastD_cons]
        split at h
        · next htag =>
          refine ⟨by rw [hlast]; exact htag, ?_⟩
          cases hp : parseVertex ((trimStr p).dropWhile isControl) <;> rw [hp] at h
          · cases h
          · rename_i w
            injection h with h
            exact ⟨w, by rw [hfirst]; exact hp, h.symm⟩
        · cases h

/-- Witness for C6 at concrete inputs: a separator-free string decodes as
malformed, `{}::edge` as unsupported, and a good vertex wire string
decodes to the vertex's re-serialization. -/
theorem c6_decode_error_taxonomy_witness :
    AgType.decode noSepWire = .error .malformedWireValue
    ∧ AgType.decode edgeWire = .error .unsupportedWireType
    ∧ (trimStr (lastSeg goodWire) = strVertex
        ∧ ∃ w : Vertex,
            parseVertex ((trimStr (firstSeg goodWire)).dropWhile isControl) = .ok w
            ∧ goodWireJson = w.toJson) :=
  ⟨c6_decode_error_taxonomy.1 noSepWire (by decide),
   c6_decode_error_taxonomy.2.1 edgeWire (by decide) (by decide),
   c6_decode_error_taxonomy.2.2.1 goodWire goodWireJson rfl⟩

/-!  ## Claim C7  -/

/-- C7: when the requested node type does not resolve, both `Node::create`
and the `create_node` endpoint fail with the unknown-type outcome and
execute zero write queries — type resolution strictly precedes validation,
query synthesis and persistence. -/
theorem c7_unknown_type_no_writes :
    ∀ (p : Str → Bool) (db : GraphDb) (request : CreateNodeRequest)
      (user now g : Str),
      db.typeFromId g request.node_type = none →
        create_node p db request user now g = (.badRequestUnknownType, [])
      ∧ Node.create p db request user now g = (.error .databaseError, []) := by
  intro p db request user now g h
  constructor
  · unfold create_node
    simp only [h]
  · unfold Node.create
    simp only [h]

/-- Witness for C7: the empty database resolves no type. -/
theorem c7_unknown_type_no_writes_witness :
    create_node (fun _ => true) emptyDb reqT [] [] [] = (.badRequestUnknownType, [])
    ∧ Node.create (fun _ => true) emptyDb reqT [] [] [] = (.error .databaseError, []) :=
  c7_unknown_type_no_writes (fun _ => true) emptyDb reqT [] [] [] rfl

/-!  ## Normalization lemmas for claim C8  -/

/-- The head step of `normalize`. -/
theorem normalize_cons (c : Char) (cs : Str) :
    normalize (c :: cs) = (if c.toUpper = ' ' then '_' else c.toUpper) :: normalize cs := by
  simp [normalize]

/-- Case-or-space/underscore variant characters normalize identically. -/
theorem charVariant_norm (c d : Char) (h : charVariant c d = true) :
    (if c.toUpper = ' ' then '_' else c.toUpper)
      = (if d.toUpper = ' ' then '_' else d.toUpper) := by
  unfold charVariant at h
  rw [Bool.or_eq_true] at h
  rcases h with h | h
  · rw [beq_iff_eq] at h
    rw [h]
  · rw [Bool.and_eq_true] at h
    obtain ⟨hc, hd⟩ := h
    rw [Bool.or_eq_true, beq_iff_eq, beq_iff_eq] at hc hd
    rcases hc with hc | hc <;> rcases hd with hd | hd <;> subst hc <;> subst hd <;> decide

/-- Names that differ only in letter case or space-vs-underscore spelling
normalize identically. -/
theorem nameVariant_normalize : ∀ a b : Str, nameVariant a b = true →
    normalize a = normalize b
  | [], [], _ => rfl
  | [], _ :: _, h => by simp [nameVariant] at h
  | _ :: _, [], h => by simp [nameVariant] at h
  | c :: cs, d :: ds, h => by
    unfold nameVariant at h
    rw [Bool.and_eq_true] at h
    obtain ⟨h1, h2⟩ := h
    rw [normalize_cons, normalize_cons, charVariant_norm c d h1,
      nameVariant_normalize cs ds h2]

/-!  ## Claim C8  -/

/-- C8: normalizing a type name uppercases it and replaces spaces with
underscores — `Power Plant` normalizes to `POWER_PLANT` — names differing
only in letter case or space-vs-underscore spelling normalize identically,
and `NodeType::from_name`, which normalizes the lookup key before
comparing it against the stored `normalized_name`, therefore resolves any
such spelling (e.g. `power plant`) to the same stored type definition
(unique for its graph and normalized name). -/
theorem c8_normalized_name_lookup :
    normalize powerPlantName = powerPlantLabel
  ∧ (∀ a b : Str, nameVariant a b = true → normalize a = normalize b)
  ∧ (∀ (store : List NodeTypeRec) (g : Str) (t : NodeTypeRec) (a b : Str),
      t ∈ store → t.graph_id = g → t.normalized_name = normalize a →
      (∀ t' ∈ store, t'.graph_id = g → t'.normalized_name = normalize a → t' = t) →
      nameVariant a b = true →
      NodeType.from_name store g b = some t) := by
  refine ⟨by decide, nameVariant_normalize, ?_⟩
  intro store g t a b ht hg hn huniq hv
  have hab := nameVariant_normalize a b hv
  unfold NodeType.from_name
  revert ht huniq
  induction store with
  | nil =>
    intro ht _
    cases ht
  | cons hd tl ih =>
    intro ht huniq
    by_cases hp : (hd.graph_id == g && hd.normalized_name == normalize b) = true
    · simp only [List.find?, hp]
      have : hd = t := by
        rw [Bool.and_eq_true, beq_iff_eq, beq_iff_eq] at hp
        exact huniq hd (List.mem_cons_self hd tl) hp.1 (by rw [hp.2, ← hab])
      rw [this]
    · simp only [List.find?, Bool.of_not_eq_true hp]
      rcases List.mem_cons.mp ht with h | h
      · exfalso
        apply hp
        rw [Bool.and_eq_true, beq_iff_eq, beq_iff_eq]
        refine ⟨?_, ?_⟩
        · rw [← h]
          exact hg
        · rw [← h, hn]
          exact hab
      · exact ih h (fun t' ht' => huniq t' (List.mem_cons_of_mem hd ht'))

/-- Witness for C8: a store holding the `Power Plant` type, looked up by
the spelling `power plant`. -/
theorem c8_normalized_name_lookup_witness :
    NodeType.from_name [powerPlantRec] ['g'] powerPlantLower = some powerPlantRec :=
  c8_normalized_name_lookup.2.2 [powerPlantRec] ['g'] powerPlantRec
    powerPlantName powerPlantLower (by decide) (by decide) (by decide)
    (by decide) (by decide)

/-!  ## `exMapM` lemmas for claim C9  -/

/-- A successful `exMapM` preserves length: no element is dropped. -/
theorem exMapM_ok_length {ε α β : Type} (f : α → Except ε β) :
    ∀ (l : List α) (ys : List β), exMapM f l = .ok ys → ys.length = l.length
  | [], ys, h => by
    injection h with h
    rw [← h]
    rfl
  | x :: xs, ys, h => by
    unfold exMapM at h
    cases hf : f x <;> simp only [hf] at h
    · exact Except.noConfusion h
    · cases hm : exMapM f xs <;> simp only [hm] at h
      · exact Except.noConfusion h
      · injection h with h
        rw [← h]
        simp [exMapM_ok_length f xs _ hm]

/-- A successful `exMapM` means every element succeeded. -/
theorem exMapM_ok_mem {ε α β : Type} (f : α → Except ε β) :
    ∀ (l : List α) (ys : List β), exMapM f l = .ok ys →
      ∀ x ∈ l, ∃ y, f x = .ok y
  | [], _, _ => by simp
  | x :: xs, ys, h => by
    unfold exMapM at h
    cases hf : f x <;> simp only [hf] at h
    · exact Except.noConfusion h
    · cases hm : exMapM f xs <;> simp only [hm] at h
      · exact Except.noConfusion h
      · intro z hz
        rcases List.mem_cons.mp hz with hz | hz
        · exact ⟨_, by rw [hz, hf]⟩
        · exact exMapM_ok_mem f xs _ hm z hz

/-- If any element fails, `exMapM` fails. -/
theorem exMapM_error_of_exists {ε α β : Type} (f : α → Except ε β)
    (l : List α) (h : ∃ x ∈ l, exIsOk (f x) = false) :
    ∃ e, exMapM f l = .error e := by
  cases hm : exMapM f l with
  | error e => exact ⟨e, rfl⟩
  | ok ys =>
    obtain ⟨x, hx, hfail⟩ := h
    obtain ⟨y, hy⟩ := exMapM_ok_mem f l ys hm x hx
    rw [hy] at hfail
    simp [exIsOk] at hfail

/-!  ## Claim C9  -/

/-- C9: in `Node::list`, a wire-decode failure on any returned row is
surfaced to the caller as an error result — the operation returns an
error value (it neither panics nor silently skips the row) — and a
normally returned node list always has exactly one node per returned row,
so no row is ever dropped. -/
theorem c9_list_surfaces_decode_errors :
    ∀ (db : GraphDb) (g : Str) (page : Option Nat) (raws : List Str) (off : Nat),
      listOffset page = some off →
      ((∃ r ∈ raws, exIsOk (AgType.decode r) = false) →
        ∃ e : ListError, Node.list db g page raws = .errored e)
      ∧ (∀ nodes : List NodeRec, Node.list db g page raws = .ok nodes →
          nodes.length = raws.length) := by
  intro db g page raws off hoff
  constructor
  · intro hex
    obtain ⟨e, he⟩ := exMapM_error_of_exists AgType.decode raws hex
    refine ⟨.fetchDecode e, ?_⟩
    unfold Node.list
    simp only [hoff, he]
  · intro nodes h
    unfold Node.list at h
    simp only [hoff] at h
    cases h1 : exMapM AgType.decode raws <;> simp only [h1] at h
    · exact ListOutcome.noConfusion h
    · rename_i jsons
      cases h2 : exMapM vertexOfJson jsons <;> simp only [h2] at h
      · exact ListOutcome.noConfusion h
      · rename_i vertices
        cases h3 : exMapM (nodeOfVertex db g) vertices <;> simp only [h3] at h
        · exact ListOutcome.noConfusion h
        · rename_i ns
          injection h with h
          rw [← h]
          rw [exMapM_ok_length _ _ _ h3, exMapM_ok_length _ _ _ h2,
            exMapM_ok_length _ _ _ h1]

/-- Witness for C9: a list over one undecodable row errors; a list over
one good row returns exactly one node. -/
theorem c9_list_surfaces_decode_errors_witness :
    (∃ e : ListError, Node.list emptyDb [] none [noSepWire] = .errored e)
    ∧ (Node.list oneTypeDb ['g'] none [goodWire] = .ok [goodNode] →
        ([goodNode] : List NodeRec).length = [goodWire].length) :=
  ⟨(c9_list_surfaces_decode_errors emptyDb [] none [noSepWire] 0 rfl).1 (by decide),
   (c9_list_surfaces_decode_errors oneTypeDb ['g'] none [goodWire] 0 rfl).2 [goodNode]⟩

/-!  ## Claim C10  -/

/-- C10 counterexample: the claim asserts the offset computation is well
defined for every page ≥ 1, but under the checked unsigned 32-bit
semantics the claim itself relies on for the page-0 panic, page 858993461
(a valid `u32`) overflows the multiplication `(page - 1) * 5` and
`Node::list` panics rather than returning a `Result`. -/
theorem c10_page_overflow_counterexample :
    1 ≤ hugePage
    ∧ listOffset (some hugePage) = none
    ∧ Node.list emptyDb [] (some hugePage) [] = .panicked := by
  refine ⟨by decide, by decide, rfl⟩

/-- C10 (amended): `Node::list` defaults an absent page to 1 (offset 0)
and computes the offset as `(page - 1) * 5` in unsigned 32-bit
arithmetic; the offset is well defined for every page ≥ 1 whose offset
fits in 32 bits (pages 1..=858993460), while `page = Some 0` underflows
the subtraction and the operation panics, under checked (debug-build)
arithmetic, instead of returning any `Result` (and pages above 858993460
likewise panic on multiplication overflow). -/
theorem c10_paging_amended :
    listOffset none = some 0
  ∧ (∀ page : Nat, 1 ≤ page → (page - 1) * 5 < 2 ^ 32 →
      listOffset (some page) = some ((page - 1) * 5))
  ∧ (∀ (db : GraphDb) (g : Str) (raws : List Str),
      Node.list db g (some 0) raws = .panicked)
  ∧ (∀ page : Nat, 858993460 < page → listOffset (some page) = none) := by
  refine ⟨rfl, ?_, ?_, ?_⟩
  · intro page h1 h2
    have hs : u32CheckedSub page 1 = some (page - 1) := by
      unfold u32CheckedSub
      rw [if_pos h1]
    have hm : u32CheckedMul (page - 1) 5 = some ((page - 1) * 5) := by
      unfold u32CheckedMul
      rw [if_pos h2]
    simp only [listOffset, Option.getD_some, hs, hm]
  · intro db g raws
    simp [Node.list, listOffset, u32CheckedSub]
  · intro page h
    have hs : u32CheckedSub page 1 = some (page - 1) := by
      unfold u32CheckedSub
      rw [if_pos (by omega)]
    have hm : u32CheckedMul (page - 1) 5 = none := by
      unfold u32CheckedMul
      have h5 : 858993460 * 5 ≤ (page - 1) * 5 := Nat.mul_le_mul_right 5 (by omega)
      rw [if_neg (by omega)]
    simp only [listOffset, Option.getD_some, hs, hm]

/-- Witness for C10 (amended) at concrete pages. -/
theorem c10_paging_amended_witness :
    listOffset (some 3) = some 10
    ∧ Node.list emptyDb [] (some 0) [] = .panicked
    ∧ listOffset (some hugePage) = none :=
  ⟨by simpa using c10_paging_amended.2.1 3 (by decide) (by decide),
   c10_paging_amended.2.2.1 emptyDb [] [],
   c10_paging_amended.2.2.2 hugePage (by decide)⟩

end SilentLink
